import Mathlib

/-!
Verification of the EPUB ingestion and chapter-extraction pipeline of the
book-chat repository (main revision of `src/components/ChapterInputModal.tsx`).

The JavaScript code is shallowly embedded: JS strings are modelled by Lean
`String` (one `Char` per JS unit), JS `null`/`undefined` attribute values by
`Option String`, JS objects used as dictionaries by association lists with
insertion-order update semantics, and parsed DOM documents by flat lists of
element nodes.  Every definition mirrors a specific function or block of the
source file; line numbers in the comments refer to the main revision.
-/

namespace BookChat

/-! ## JavaScript string primitives -/

/-- Splitting a character list at every occurrence of `sep`, keeping empty
pieces, as JS `String.prototype.split` does with a one-character separator. -/
def splitOnCharList (sep : Char) : List Char → List (List Char)
  | [] => [[]]
  | c :: rest =>
    let r := splitOnCharList sep rest
    if c = sep then [] :: r
    else
      match r with
      | h :: t => (c :: h) :: t
      | [] => [[c]]

/-- JS `s.split(sep)` for a one-character separator. -/
def jsSplit (s : String) (sep : Char) : List String :=
  (splitOnCharList sep s.data).map String.mk

/-- JS `Array.prototype.join('/')`. -/
def joinSlash : List String → String
  | [] => ""
  | [x] => x
  | x :: y :: rest => x ++ "/" ++ joinSlash (y :: rest)

/-- Truthiness of a JS string-or-null value: `null`, `undefined` and the
empty string are falsy. -/
def truthy : Option String → Bool
  | some s => s ≠ ""
  | none => false

/-- Substring test on character lists (helper for JS `includes`). -/
def hasSubstrList (pat : List Char) : List Char → Bool
  | [] => pat.isPrefixOf []
  | c :: rest => pat.isPrefixOf (c :: rest) || hasSubstrList pat rest

/-- JS `s.includes(pat)`. -/
def jsIncludes (s pat : String) : Bool :=
  hasSubstrList pat.data s.data

/-- JS `s.startsWith(pat)`. -/
def jsStartsWith (s pat : String) : Bool :=
  pat.data.isPrefixOf s.data

/-- JS `s.toUpperCase()` (ASCII range, which covers the tag names compared). -/
def jsToUpper (s : String) : String :=
  String.mk (s.data.map Char.toUpper)

/-- JS `s.trim()`: strip leading and trailing whitespace. -/
def jsTrim (s : String) : String :=
  String.mk (((s.data.dropWhile Char.isWhitespace).reverse.dropWhile
    Char.isWhitespace).reverse)

/-- JS `s.substring(0, n)`: the first `n` units of `s`. -/
def jsSubstring (s : String) (n : Nat) : String :=
  String.mk (s.data.take n)

/-! ## Path Resolver (source lines 50-63, `getAbsolutePath`) -/

/-- Loop body of `getAbsolutePath`: one relative-reference segment applied to
the accumulated base segments.  `..` pops when the stack is nonempty, `.` and
empty segments are skipped, anything else is pushed. -/
def pathStep (acc : List String) (part : String) : List String :=
  if part = ".." then
    if acc.length > 0 then acc.dropLast else acc
  else if part ≠ "." ∧ part ≠ "" then acc ++ [part]
  else acc

/-- Source `getAbsolutePath(base, relative)`: split the base on `/`, drop its
file-name segment, then fold the relative reference's segments over it and
rejoin with `/`. -/
def getAbsolutePath (base relative : String) : String :=
  let baseParts := (jsSplit base '/').dropLast
  let relativeParts := jsSplit relative '/'
  joinSlash (relativeParts.foldl pathStep baseParts)

/-- Modelled from the spec: the standard hierarchical join, written as direct
recursion over the reference's segments — `..` pops one directory level (no-op
at root), `.` and empty segments are skipped, named segments are appended. -/
def normalizeSegs (stack : List String) : List String → List String
  | [] => stack
  | seg :: rest =>
    if seg = ".." then normalizeSegs stack.dropLast rest
    else if seg = "." ∨ seg = "" then normalizeSegs stack rest
    else normalizeSegs (stack ++ [seg]) rest

/-- Modelled from the spec: `resolve(base, ref)` dropping the base's last
segment and normalizing the reference's segments against it. -/
def resolveSpec (base relative : String) : String :=
  joinSlash (normalizeSegs ((jsSplit base '/').dropLast) (jsSplit relative '/'))

/-! ## Manifest building (source lines 113-126) -/

/-- A manifest entry as built by the source: a resolved path, a media type and
the item id. -/
structure ManifestItem where
  href : String
  mediaType : String
  id : String
deriving DecidableEq

/-- A raw `manifest > item` element: the three attributes read by the source
plus the `properties` attribute used for EPUB3 nav detection.  `none` models a
missing attribute. -/
structure OpfItem where
  id : Option String
  href : Option String
  mediaType : Option String
  properties : Option String
deriving DecidableEq

/-- The parts of the OPF document the TOC-reference logic reads: the manifest
item elements in document order and the `spine/@toc` attribute. -/
structure OpfPackage where
  items : List OpfItem
  spineToc : Option String
deriving DecidableEq

/-- The manifest entry built from a raw item when `id`, `href` and
`media-type` are all truthy (source line 120), with the href resolved against
the package document's path; `none` when the item is skipped. -/
def rawEntry (rootfilePath : String) (it : OpfItem) : Option ManifestItem :=
  match it.id, it.href, it.mediaType with
  | some i, some h, some mt =>
    if i ≠ "" ∧ h ≠ "" ∧ mt ≠ "" then
      some { href := getAbsolutePath rootfilePath h, mediaType := mt, id := i }
    else none
  | _, _, _ => none

/-- Assignment `obj[k] = v` on a JS object modelled as an association list:
an existing key keeps its position and gets the new value, a fresh key is
appended. -/
def upsert (m : List (String × ManifestItem)) (k : String) (v : ManifestItem) :
    List (String × ManifestItem) :=
  if m.any (fun p => p.1 = k) then
    m.map (fun p => if p.1 = k then (k, v) else p)
  else m ++ [(k, v)]

/-- JS object property lookup `m[k]` (keys are unique in the lists built by
`buildManifest`). -/
def lookupA {α : Type} : List (String × α) → String → Option α
  | [], _ => none
  | (k, v) :: rest, key => if k = key then some v else lookupA rest key

/-- Source lines 113-126: one pass over all manifest items, inserting every
valid entry into both indices (`manifestById`, `manifestByHref`). -/
def buildManifest (rootfilePath : String) (items : List OpfItem) :
    List (String × ManifestItem) × List (String × ManifestItem) :=
  items.foldl
    (fun acc it =>
      match rawEntry rootfilePath it with
      | some e => (upsert acc.1 e.id e, upsert acc.2 e.href e)
      | none => acc)
    ([], [])

/-- Does the item's `properties` attribute contain `"nav"` (source line 129:
`item.getAttribute("properties")?.includes("nav")`)? -/
def propsHasNav (it : OpfItem) : Bool :=
  match it.properties with
  | some p => jsIncludes p "nav"
  | none => false

/-- Last-resort TOC lookup (source lines 146-150): the first manifest value
whose media type is the NCX type. -/
def ncxFallback (manifestById : List (String × ManifestItem)) :
    Option (String × String) :=
  match (manifestById.map Prod.snd).find?
      (fun m => m.mediaType = "application/x-dtbncx+xml") with
  | some e => some (e.href, e.mediaType)
  | none => none

/-- Source lines 129-136, rule (a): the first manifest item whose `properties`
contains `nav`, accepted when the manifest entry its id names has an
XHTML/HTML media type; `none` when this block assigns nothing. -/
def navStage (items : List OpfItem)
    (manifestById : List (String × ManifestItem)) : Option (String × String) :=
  match items.find? propsHasNav with
  | some navItem =>
    match navItem.id with
    | some navItemId =>
      if navItemId ≠ "" then
        match lookupA manifestById navItemId with
        | some e =>
          if e.mediaType = "application/xhtml+xml" ∨ e.mediaType = "text/html"
          then some (e.href, e.mediaType)
          else none
        | none => none
      else none
    | none => none
  | none => none

/-- Source lines 139-151, the body of the `if (!tocPath)` block: rule (b)
accepts the item named by `spine/@toc` when its media type is NCX or
XHTML/HTML; rule (c), reached only from the `else` of the rule-(b) lookup, is
the first NCX-typed manifest value.  `none` when this block assigns
nothing. -/
def spineTocStage (manifestById : List (String × ManifestItem))
    (spineToc : Option String) : Option (String × String) :=
  match spineToc with
  | some ncxItemId =>
    if ncxItemId ≠ "" then
      match lookupA manifestById ncxItemId with
      | some e =>
        if e.mediaType = "application/x-dtbncx+xml" ∨
            e.mediaType = "application/xhtml+xml" ∨ e.mediaType = "text/html"
        then some (e.href, e.mediaType)
        else none
      | none => ncxFallback manifestById
    else ncxFallback manifestById
  | none => ncxFallback manifestById

/-- Truthiness of the `tocPath` variable after a stage: assigned and
nonempty. -/
def truthyRef : Option (String × String) → Bool
  | some r => r.1 ≠ ""
  | none => false

/-- Source lines 129-152: determine the TOC reference `(tocPath, tocMediaType)`.
Rule (a) runs first; line 138 re-checks `if (!tocPath)`, so an absent or falsy
(empty) path from rule (a) falls through to the spine block, whose assignment
— if any — overwrites both variables; otherwise the rule-(a) state is kept. -/
def chooseTocRef (rootfilePath : String) (opf : OpfPackage) :
    Option (String × String) :=
  let manifestById := (buildManifest rootfilePath opf.items).1
  let tocAfterNav := navStage opf.items manifestById
  if truthyRef tocAfterNav = true then tocAfterNav
  else
    match spineTocStage manifestById opf.spineToc with
    | some r => some r
    | none => tocAfterNav

/-! ## DOM model

A parsed HTML/XHTML chapter document is modelled as the flat list of element
children of its `body`: each `Node` carries the data the source reads — tag
name, `id` attribute (the DOM's `.id` is `""` when absent), `src` attribute
(meaningful for `img` elements) and its text content. -/

structure Node where
  tag : String
  idAttr : String
  src : Option String
  text : String
deriving DecidableEq

/-- Serialization of one element, standing for the DOM's `outerHTML`. -/
def serializeNode (n : Node) : String :=
  "<" ++ n.tag ++
    (if n.idAttr ≠ "" then " id=\x22" ++ n.idAttr ++ "\x22" else "") ++
    (match n.src with
     | some s => " src=\x22" ++ s ++ "\x22"
     | none => "") ++
    ">" ++ n.text ++ "</" ++ n.tag ++ ">"

/-- Serialization of a node list, standing for `innerHTML` of their parent. -/
def serializeDoc : List Node → String
  | [] => ""
  | n :: rest => serializeNode n ++ serializeDoc rest

/-! ## TOC entries (source lines 18, 222-248) -/

/-- Source `TocItem`: `{ title: string | null; filePath: string | null;
anchor?: string }`. -/
structure TocItem where
  title : Option String
  filePath : Option String
  anchor : Option String
deriving DecidableEq

/-- An NCX `navPoint` element: the `navLabel > text` content and the
`content/@src` attribute as read by the source. -/
structure NavPoint where
  labelText : Option String
  contentSrc : Option String
deriving DecidableEq

/-- An EPUB3 navigation-document link: its text content and `href`. -/
structure NavLink where
  textContent : Option String
  href : Option String
deriving DecidableEq

/-- Splitting a `src`/`href` value on `#` into file part and anchor part, as
the source does (lines 225, 242): a falsy file part gives a `null` file path,
a falsy anchor part gives `undefined`. -/
def splitHash (raw : Option String) : Option String × Option String :=
  match raw with
  | none => (none, none)
  | some s =>
    let parts := jsSplit s '#'
    let filePart : Option String :=
      match parts with
      | [] => none
      | p :: _ => if p = "" then none else some p
    let anchorPart : Option String :=
      match parts with
      | _ :: a :: _ => if a = "" then none else some a
      | _ => none
    (filePart, anchorPart)

/-- The `textContent?.trim() || "無題の章"` idiom used for both TOC forms
(source lines 223 and 240): a missing or blank label yields the sentinel. -/
def titleOrSentinel (label : Option String) : String :=
  match label with
  | some t => if jsTrim t = "" then "無題の章" else jsTrim t
  | none => "無題の章"

/-- Source lines 222-231: the `TocItem` built from one NCX `navPoint`.  The
title falls back to the sentinel `"無題の章"` when the trimmed label is falsy;
the file part is resolved against the TOC document's path. -/
def tocItemOfNavPoint (tocPath : String) (np : NavPoint) : TocItem :=
  let parts := splitHash np.contentSrc
  { title := some (titleOrSentinel np.labelText)
    filePath := parts.1.map (fun p => getAbsolutePath tocPath p)
    anchor := parts.2 }

/-- Source lines 239-247: the `TocItem` built from one navigation-document
link; same title sentinel and path resolution as the NCX case. -/
def tocItemOfNavLink (tocPath : String) (link : NavLink) : TocItem :=
  let parts := splitHash link.href
  { title := some (titleOrSentinel link.textContent)
    filePath := parts.1.map (fun p => getAbsolutePath tocPath p)
    anchor := parts.2 }

/-! ## Section extraction (source lines 264-311) -/

/-- `getElementById` over the flat document: the first element carrying the
given id, returned together with its following siblings. -/
def findAnchor : List Node → String → Option (Node × List Node)
  | [], _ => none
  | e :: rest, a => if e.idAttr = a then some (e, rest) else findAnchor rest a

/-- Source line 288: is the element a heading `h1`-`h6`? -/
def isHeading (n : Node) : Bool :=
  ["H1", "H2", "H3", "H4", "H5", "H6"].contains (jsToUpper n.tag)

/-- Source lines 285-287: does the element's id equal the anchor of a
different TOC entry targeting the same file? -/
def isDifferentAnchor (ctx : List TocItem) (item : TocItem) (nextEl : Node) :
    Bool :=
  ctx.any fun tocItem =>
    tocItem.filePath == item.filePath &&
      (match tocItem.anchor with
       | some a => a != "" && a == nextEl.idAttr && some a != item.anchor
       | none => false)

/-- The boundary condition of the sibling walk (source lines 288-292). -/
def stopCond (ctx : List TocItem) (item : TocItem) (n : Node) : Bool :=
  isHeading n || isDifferentAnchor ctx item n

/-- Source lines 278-294: push the current element, stop before the first
following sibling that meets the boundary condition. -/
def collectLoop (stop : Node → Bool) : Node → List Node → List Node
  | current, [] => [current]
  | current, nextEl :: rest =>
    if stop nextEl then [current] else current :: collectLoop stop nextEl rest

/-- Source lines 268-311, the whole anchor branch: locate the anchor element,
collect its sibling run, and fall back to the full document when the anchor is
missing or the serialized run is blank. -/
def extractAnchoredSection (ctx : List TocItem) (item : TocItem)
    (fullDoc : List Node) (anchor : String) : List Node :=
  match findAnchor fullDoc anchor with
  | some (e, rest) =>
    let elems := collectLoop (stopCond ctx item) e rest
    if jsTrim (serializeDoc elems) ≠ "" then elems else fullDoc
  | none => fullDoc

/-! ## Image embedding (source lines 161-210) -/

/-- Source line 15. -/
def SUPPORTED_IMAGE_TYPES : List String :=
  ["image/jpeg", "image/png", "image/gif", "image/svg+xml"]

/-- Source lines 171-194, one `img` element: skip when the element is not an
image, has no truthy `src`, or the `src` is already a `data:` reference; else
resolve the path, require a manifest entry of supported type and the file in
the archive (whose binary payload is modelled by its base64 text), and replace
the `src` by the inline data reference. -/
def processImg (htmlFilePath : String) (zipBins : List (String × String))
    (manifestByHref : List (String × ManifestItem)) (n : Node) : Node :=
  if n.tag ≠ "img" then n
  else
    match n.src with
    | none => n
    | some originalSrc =>
      if originalSrc = "" ∨ jsStartsWith originalSrc "data:" then n
      else
        let imageAbsPath := getAbsolutePath htmlFilePath originalSrc
        match lookupA manifestByHref imageAbsPath with
        | some entry =>
          if SUPPORTED_IMAGE_TYPES.contains entry.mediaType then
            match lookupA zipBins imageAbsPath with
            | some base64Data =>
              let dataUrl := "data:" ++ entry.mediaType ++ ";base64," ++ base64Data
              { n with src := some dataUrl }
            | none => n
          else n
        | none => n

/-- Source `processHtmlStringAndEmbedImages`: rewrite every image reference of
the document in place. -/
def processHtmlStringAndEmbedImages (htmlFilePath : String)
    (zipBins : List (String × String))
    (manifestByHref : List (String × ManifestItem)) (doc : List Node) :
    List Node :=
  doc.map (processImg htmlFilePath zipBins manifestByHref)

/-! ## Chapter assembly (source lines 14, 158, 252-330) -/

/-- Source line 14. -/
def MAX_TITLE_LENGTH : Nat := 200

/-- Source lines 254-256: truncate an over-long title to 200 units plus an
ellipsis. -/
def truncateTitle (s : String) : String :=
  if s.length > MAX_TITLE_LENGTH then jsSubstring s MAX_TITLE_LENGTH ++ "..."
  else s

/-- The `ChapterWithContent` record pushed by the loop. -/
structure ChapterWithContent where
  title : String
  content : String
  isHtmlContent : Bool
deriving DecidableEq

/-- Source lines 258-325, the body of the loop once the title/file-path guard
has passed: load the chapter document, run the anchor branch when the item has
a truthy anchor, embed images and push the record — or push the
missing-file placeholder when the archive lacks the file. -/
def buildRecord (ctx : List TocItem) (zipDocs : List (String × List Node))
    (zipBins : List (String × String))
    (manifestByHref : List (String × ManifestItem)) (item : TocItem)
    (t fp : String) : ChapterWithContent :=
  match lookupA zipDocs fp with
  | some fullDoc =>
    let chapterSpecificContent :=
      match item.anchor with
      | some a => if a ≠ "" then extractAnchoredSection ctx item fullDoc a
                  else fullDoc
      | none => fullDoc
    { title := t
      content := serializeDoc
        (processHtmlStringAndEmbedImages fp zipBins manifestByHref
          chapterSpecificContent)
      isHtmlContent := true }
  | none =>
    { title := t
      content := "<p>(内容ファイル " ++ fp ++ " が見つかりません)</p>"
      isHtmlContent := true }

/-- Source lines 252-328, one iteration: truncate the title, then either build
a record (both title and file path truthy) or skip the item. -/
def itemRecord (ctx : List TocItem) (zipDocs : List (String × List Node))
    (zipBins : List (String × String))
    (manifestByHref : List (String × ManifestItem)) (item : TocItem) :
    Option ChapterWithContent :=
  let chapterTitleText := item.title.map truncateTitle
  match chapterTitleText, item.filePath with
  | some t, some fp =>
    if t ≠ "" ∧ fp ≠ "" then
      some (buildRecord ctx zipDocs zipBins manifestByHref item t fp)
    else none
  | _, _ => none

/-- The guard of the loop body (source line 258): truncated title and file
path both truthy. -/
def passes (item : TocItem) : Bool :=
  truthy (item.title.map truncateTitle) && truthy item.filePath

/-- The record built for a passing item, as a total function of the item. -/
def recordFor (ctx : List TocItem) (zipDocs : List (String × List Node))
    (zipBins : List (String × String))
    (manifestByHref : List (String × ManifestItem)) (item : TocItem) :
    ChapterWithContent :=
  buildRecord ctx zipDocs zipBins manifestByHref item
    (truncateTitle (item.title.getD "")) (item.filePath.getD "")

/-- Source lines 252-329: the whole loop over `itemsToProcess`, pushing one
record per non-skipped item in order. -/
def processItems (ctx : List TocItem) (zipDocs : List (String × List Node))
    (zipBins : List (String × String))
    (manifestByHref : List (String × ManifestItem)) :
    List TocItem → List ChapterWithContent
  | [] => []
  | item :: rest =>
    match itemRecord ctx zipDocs zipBins manifestByHref item with
    | some r => r :: processItems ctx zipDocs zipBins manifestByHref rest
    | none => processItems ctx zipDocs zipBins manifestByHref rest

/-- The loop as called by the source: the context list and the iterated list
are the same `itemsToProcess`. -/
def runAssembler (zipDocs : List (String × List Node))
    (zipBins : List (String × String))
    (manifestByHref : List (String × ManifestItem)) (items : List TocItem) :
    List ChapterWithContent :=
  processItems items zipDocs zipBins manifestByHref items

/-! ## Final-result policy (source lines 334-344) -/

/-- Source line 337. -/
def noTocMsg : String :=
  "EPUBから目次ファイル (NCX または NAV) を特定できませんでした。"

/-- Source line 339, with the TOC path spliced in. -/
def emptyTocMsg (tocPath : String) : String :=
  "EPUBの目次ファイル (" ++
    (tocPath ++ ") は読み込めましたが、章項目を抽出できませんでした。")

/-- Source line 341. -/
def noResolvableMsg : String :=
  "EPUB目次から章のタイトルや内容を抽出できませんでした。"

/-- Source line 343, appended to every empty-result message. -/
def errSuffix : String :=
  " OPFと目次構造を確認してください。ログに詳細がある場合があります。"

/-- Outcome of the import: a user-facing error or the batch of chapters. -/
inductive ImportOutcome where
  | failure (msg : String)
  | success (chapters : List ChapterWithContent)
deriving DecidableEq

/-- Source lines 334-345: when zero chapters were produced, fail with the
message selected by the proximate cause; otherwise succeed with the batch. -/
def finalizeResult (tocPath tocMediaType : Option String)
    (tocItemsFound : Bool) (chapters : List ChapterWithContent) :
    ImportOutcome :=
  if chapters.length = 0 then
    ImportOutcome.failure
      ((if ¬ (truthy tocPath = true) ∨ ¬ (truthy tocMediaType = true) then
          noTocMsg
        else if ¬ (tocItemsFound = true) then emptyTocMsg (tocPath.getD "")
        else noResolvableMsg) ++ errSuffix)
  else ImportOutcome.success chapters

/-- Source lines 212-344, NCX branch: `tocItemsFound` is set when at least one
`navPoint` was selected, the TOC items are built, assembled, and the result
finalized. -/
def runNcxStage (tocPath tocMediaType : String) (navPoints : List NavPoint)
    (zipDocs : List (String × List Node)) (zipBins : List (String × String))
    (manifestByHref : List (String × ManifestItem)) : ImportOutcome :=
  let tocItemsFound := !navPoints.isEmpty
  let itemsToProcess := navPoints.map (tocItemOfNavPoint tocPath)
  let chaptersWithContent :=
    runAssembler zipDocs zipBins manifestByHref itemsToProcess
  finalizeResult (some tocPath) (some tocMediaType) tocItemsFound
    chaptersWithContent

/-! ## General helper lemmas -/

theorem string_data_append (a b : String) : (a ++ b).data = a.data ++ b.data :=
  rfl

theorem string_length_data (s : String) : s.length = s.data.length := rfl

theorem string_data_eq_nil_iff (s : String) : s.data = [] ↔ s = "" := by
  constructor
  · intro h
    cases s with
    | mk l =>
      cases h
      rfl
  · intro h
    rw [h]

theorem dropLast_guard (l : List String) :
    (if l.length > 0 then l.dropLast else l) = l.dropLast := by
  cases l <;> simp

theorem isPrefixOf_append (l m : List Char) : l.isPrefixOf (l ++ m) = true := by
  induction l with
  | nil => simp [List.isPrefixOf]
  | cons a as ih => simp [List.isPrefixOf, ih]

/-! ## Path Resolver: theorems for claim C2 -/

theorem normalizeSegs_eq_foldl (segs : List String) :
    ∀ stack, normalizeSegs stack segs = segs.foldl pathStep stack := by
  induction segs with
  | nil => intro stack; rfl
  | cons seg rest ih =>
    intro stack
    simp only [normalizeSegs, List.foldl]
    by_cases hup : seg = ".."
    · rw [if_pos hup, ih]
      have hstep : pathStep stack seg = stack.dropLast := by
        unfold pathStep
        rw [if_pos hup]
        exact dropLast_guard stack
      rw [hstep]
    · by_cases hskip : seg = "." ∨ seg = ""
      · rw [if_neg hup, if_pos hskip, ih]
        have hstep : pathStep stack seg = stack := by
          unfold pathStep
          rw [if_neg hup, if_neg]
          intro hcon
          rcases hskip with h | h
          · exact hcon.1 h
          · exact hcon.2 h
        rw [hstep]
      · rw [if_neg hup, if_neg hskip, ih]
        push_neg at hskip
        have hstep : pathStep stack seg = stack ++ [seg] := by
          unfold pathStep
          rw [if_neg hup, if_pos ⟨hskip.1, hskip.2⟩]
        rw [hstep]

/-- C2: for every base path and relative reference, the source's
`getAbsolutePath` agrees with the spec's standard hierarchical join
(`resolveSpec`), and in particular resolves the spec's worked example
`getAbsolutePath "a/b/c.xhtml" "../img/x.png" = "a/img/x.png"`. -/
theorem getAbsolutePath_matches_spec :
    (∀ base relative, getAbsolutePath base relative = resolveSpec base relative)
      ∧ getAbsolutePath "a/b/c.xhtml" "../img/x.png" = "a/img/x.png" := by
  constructor
  · intro base relative
    unfold getAbsolutePath resolveSpec
    rw [normalizeSegs_eq_foldl]
  · decide

/-! ## Title truncation: theorems for claim C6 -/

/-- C6: a title longer than 200 units becomes its first 200 units plus
`"..."` — exactly 203 units long — and a title of at most 200 units is left
unchanged. -/
theorem truncateTitle_spec (s : String) :
    (s.length > 200 →
      truncateTitle s = jsSubstring s 200 ++ "..." ∧
        (truncateTitle s).length = 203) ∧
    (s.length ≤ 200 → truncateTitle s = s) := by
  constructor
  · intro hlong
    have heq : truncateTitle s = jsSubstring s 200 ++ "..." := by
      unfold truncateTitle MAX_TITLE_LENGTH
      rw [if_pos hlong]
    refine ⟨heq, ?_⟩
    rw [heq, string_length_data, string_data_append]
    rw [List.length_append]
    unfold jsSubstring
    show (s.data.take 200).length + 3 = 203
    rw [List.length_take]
    have h200 : 200 ≤ s.data.length := le_of_lt (by exact hlong)
    rw [min_eq_left h200]
  · intro hshort
    unfold truncateTitle MAX_TITLE_LENGTH
    rw [if_neg (by omega)]

/-- A 201-unit title used to witness the truncation theorem. -/
def longTitle : String := String.mk (List.replicate 201 'x')

set_option maxRecDepth 4096 in
theorem truncateTitle_spec_witness :
    longTitle.length > 200 ∧
      truncateTitle longTitle = jsSubstring longTitle 200 ++ "..." ∧
      (truncateTitle longTitle).length = 203 :=
  ⟨by decide, (truncateTitle_spec longTitle).1 (by decide)⟩

/-! ## Section extraction: theorems for claim C3 -/

theorem serializeDoc_cons_data (e : Node) (l : List Node) :
    ∃ t, (serializeDoc (e :: l)).data = '<' :: t :=
  ⟨_, rfl⟩

theorem jsTrim_ne_empty_of_head (s : String) (c : Char) (t : List Char)
    (hdata : s.data = c :: t) (hc : c.isWhitespace = false) :
    jsTrim s ≠ "" := by
  intro hcon
  have h0 : ((s.data.dropWhile Char.isWhitespace).reverse.dropWhile
      Char.isWhitespace).reverse = [] := congrArg String.data hcon
  rw [hdata, List.dropWhile_cons, hc] at h0
  simp only [Bool.false_eq_true, if_false, List.reverse_eq_nil_iff] at h0
  rw [List.dropWhile_eq_nil_iff] at h0
  have hcw := h0 c (by simp)
  rw [hc] at hcw
  exact Bool.false_ne_true hcw

theorem jsTrim_serializeDoc_cons (e : Node) (l : List Node) :
    jsTrim (serializeDoc (e :: l)) ≠ "" := by
  obtain ⟨t, ht⟩ := serializeDoc_cons_data e l
  exact jsTrim_ne_empty_of_head _ '<' t ht (by decide)

theorem collectLoop_eq_takeWhile (stop : Node → Bool) (rest : List Node) :
    ∀ current, collectLoop stop current rest =
      current :: rest.takeWhile (fun n => !stop n) := by
  induction rest with
  | nil => intro c; rfl
  | cons n r ih =>
    intro c
    cases hsn : stop n with
    | true => simp [collectLoop, hsn, List.takeWhile_cons]
    | false => simp [collectLoop, hsn, List.takeWhile_cons, ih]

/-- C3: when the anchor element is found, the extracted section is exactly the
anchor element followed by the run of next siblings up to (and excluding) the
first heading or the first element carrying a different TOC entry's anchor for
the same file. -/
theorem extractAnchoredSection_bounded (ctx : List TocItem) (item : TocItem)
    (fullDoc : List Node) (anchor : String) (e : Node) (rest : List Node)
    (h : findAnchor fullDoc anchor = some (e, rest)) :
    extractAnchoredSection ctx item fullDoc anchor =
      e :: rest.takeWhile (fun n => !stopCond ctx item n) := by
  unfold extractAnchoredSection
  simp only [h]
  rw [collectLoop_eq_takeWhile]
  rw [if_pos (jsTrim_serializeDoc_cons _ _)]

/-- The four sibling elements of the claim's worked example. -/
def exH2a : Node := { tag := "h2", idAttr := "a", src := none, text := "T1" }

def exPx : Node := { tag := "p", idAttr := "", src := none, text := "x" }

def exH2b : Node := { tag := "h2", idAttr := "b", src := none, text := "T2" }

def exPy : Node := { tag := "p", idAttr := "", src := none, text := "y" }

def exDocC3 : List Node := [exH2a, exPx, exH2b, exPy]

def exItemA : TocItem :=
  { title := some "T1", filePath := some "c.xhtml", anchor := some "a" }

def exItemB : TocItem :=
  { title := some "T2", filePath := some "c.xhtml", anchor := some "b" }

def exTocC3 : List TocItem := [exItemA, exItemB]

theorem extractAnchoredSection_bounded_witness :
    extractAnchoredSection exTocC3 exItemA exDocC3 "a" = [exH2a, exPx] := by
  have h := extractAnchoredSection_bounded exTocC3 exItemA exDocC3 "a" exH2a
    [exPx, exH2b, exPy] (by decide)
  rw [h]
  decide

/-! ## Image embedding: theorems for claim C9 -/

theorem dataUrl_startsWith (mt b : String) :
    jsStartsWith ("data:" ++ mt ++ ";base64," ++ b) "data:" = true := by
  unfold jsStartsWith
  have hshape : ("data:" ++ mt ++ ";base64," ++ b).data =
      "data:".data ++ (mt.data ++ (";base64,".data ++ b.data)) := by
    simp [string_data_append, List.append_assoc]
  rw [hshape]
  exact isPrefixOf_append _ _

theorem processImg_idem (htmlFilePath : String)
    (zipBins : List (String × String)) (m : List (String × ManifestItem))
    (n : Node) :
    processImg htmlFilePath zipBins m (processImg htmlFilePath zipBins m n) =
      processImg htmlFilePath zipBins m n := by
  by_cases htag : n.tag = "img"
  · have hne : ¬ (n.tag ≠ "img") := fun hh => hh htag
    cases hsrc : n.src with
    | none =>
      have h1 : processImg htmlFilePath zipBins m n = n := by
        unfold processImg
        rw [if_neg hne]
        simp only [hsrc]
      rw [h1, h1]
    | some s =>
      by_cases hskip : s = "" ∨ jsStartsWith s "data:" = true
      · have h1 : processImg htmlFilePath zipBins m n = n := by
          unfold processImg
          rw [if_neg hne]
          simp only [hsrc]
          rw [if_pos hskip]
        rw [h1, h1]
      · cases hlook : lookupA m (getAbsolutePath htmlFilePath s) with
        | none =>
          have h1 : processImg htmlFilePath zipBins m n = n := by
            unfold processImg
            rw [if_neg hne]
            simp only [hsrc, hlook]
            rw [if_neg hskip]
          rw [h1, h1]
        | some entry =>
          by_cases hsup : SUPPORTED_IMAGE_TYPES.contains entry.mediaType = true
          · cases hbin : lookupA zipBins (getAbsolutePath htmlFilePath s) with
            | none =>
              have h1 : processImg htmlFilePath zipBins m n = n := by
                unfold processImg
                rw [if_neg hne]
                simp only [hsrc, hlook, hbin]
                rw [if_neg hskip, if_pos hsup]
              rw [h1, h1]
            | some b64 =>
              have h1 : processImg htmlFilePath zipBins m n =
                  { n with src := some ("data:" ++ entry.mediaType ++ ";base64," ++ b64) } := by
                unfold processImg
                rw [if_neg hne]
                simp only [hsrc, hlook, hbin]
                rw [if_neg hskip, if_pos hsup]
              rw [h1]
              unfold processImg
              rw [if_neg]
              · simp only []
                rw [if_pos (Or.inr (dataUrl_startsWith entry.mediaType b64))]
              · show ¬ (n.tag ≠ "img")
                exact hne
          · have h1 : processImg htmlFilePath zipBins m n = n := by
              unfold processImg
              rw [if_neg hne]
              simp only [hsrc, hlook]
              rw [if_neg hskip, if_neg hsup]
            rw [h1, h1]
  · have h1 : processImg htmlFilePath zipBins m n = n := by
      unfold processImg
      rw [if_pos htag]
    rw [h1, h1]

/-- C9: embedding images is idempotent — running the embedder on its own
output (same file path, archive and manifest) changes nothing, because
`data:` references are skipped and unresolved references fail identically. -/
theorem embedImages_idempotent (htmlFilePath : String)
    (zipBins : List (String × String)) (m : List (String × ManifestItem))
    (doc : List Node) :
    processHtmlStringAndEmbedImages htmlFilePath zipBins m
        (processHtmlStringAndEmbedImages htmlFilePath zipBins m doc) =
      processHtmlStringAndEmbedImages htmlFilePath zipBins m doc := by
  unfold processHtmlStringAndEmbedImages
  rw [List.map_map]
  apply List.map_congr_left
  intro n _
  show processImg htmlFilePath zipBins m (processImg htmlFilePath zipBins m n) =
    processImg htmlFilePath zipBins m n
  exact processImg_idem htmlFilePath zipBins m n

/-! ## Chapter assembly: theorems for claims C8, C4 and C10 -/

theorem itemRecord_eq_guard (ctx : List TocItem)
    (zipDocs : List (String × List Node)) (zipBins : List (String × String))
    (m : List (String × ManifestItem)) (item : TocItem) :
    itemRecord ctx zipDocs zipBins m item =
      if passes item = true then some (recordFor ctx zipDocs zipBins m item)
      else none := by
  unfold itemRecord passes recordFor truthy
  cases ht : item.title with
  | none => simp [ht]
  | some s =>
    cases hf : item.filePath with
    | none => simp [ht, hf]
    | some f =>
      by_cases h1 : truncateTitle s = ""
      · simp [ht, hf, h1]
      · by_cases h2 : f = ""
        · simp [ht, hf, h1, h2]
        · simp [ht, hf, h1, h2]

/-- C8: the assembler's output is exactly the passing TOC entries, in order,
each mapped to its record — no reordering, no deduplication, the Nth record
comes from the Nth entry with a truthy title and file path. -/
theorem chapters_preserve_toc_order (ctx : List TocItem)
    (zipDocs : List (String × List Node)) (zipBins : List (String × String))
    (m : List (String × ManifestItem)) (items : List TocItem) :
    processItems ctx zipDocs zipBins m items =
      (items.filter passes).map (recordFor ctx zipDocs zipBins m) := by
  induction items with
  | nil => rfl
  | cons it rest ih =>
    simp only [processItems, itemRecord_eq_guard, List.filter_cons]
    by_cases h : passes it = true
    · simp [h, ih]
    · simp [h, ih]

/-- C4: when every entry has a truthy title and file path, the import yields
one record per entry; the record of an entry whose file is missing from the
archive is the diagnostic placeholder, whose content contains the file path. -/
theorem missing_file_placeholder (zipDocs : List (String × List Node))
    (zipBins : List (String × String)) (m : List (String × ManifestItem))
    (items : List TocItem) (k : Nat) (p : String)
    (hall : ∀ it ∈ items, passes it = true)
    (hk : k < items.length)
    (hp : (items.get ⟨k, hk⟩).filePath = some p)
    (hmiss : lookupA zipDocs p = none) :
    (runAssembler zipDocs zipBins m items).length = items.length ∧
    ∃ r, (runAssembler zipDocs zipBins m items)[k]? = some r ∧
      r.isHtmlContent = true ∧
      ∃ pre post, r.content = pre ++ (p ++ post) := by
  have hrun : runAssembler zipDocs zipBins m items =
      items.map (recordFor items zipDocs zipBins m) := by
    unfold runAssembler
    rw [chapters_preserve_toc_order, List.filter_eq_self.mpr hall]
  have hrec : recordFor items zipDocs zipBins m (items.get ⟨k, hk⟩) =
      { title := truncateTitle ((items.get ⟨k, hk⟩).title.getD "")
        content := "<p>(内容ファイル " ++ p ++ " が見つかりません)</p>"
        isHtmlContent := true } := by
    unfold recordFor buildRecord
    rw [hp]
    simp only [Option.getD_some, hmiss]
  refine ⟨by rw [hrun, List.length_map], ?_⟩
  refine ⟨recordFor items zipDocs zipBins m (items.get ⟨k, hk⟩), ?_, ?_, ?_⟩
  · rw [hrun, List.getElem?_map _ _ k, List.getElem?_eq_getElem hk]
    simp [List.get_eq_getElem]
  · rw [hrec]
  · rw [hrec]
    exact ⟨"<p>(内容ファイル ", " が見つかりません)</p>",
      String.append_assoc _ _ _⟩

/-- Example input witnessing the missing-file theorem: two resolvable entries,
the second one's file absent from the archive. -/
def exItemsC4 : List TocItem :=
  [ { title := some "第1章", filePath := some "ch1.xhtml", anchor := none },
    { title := some "第2章", filePath := some "missing.xhtml", anchor := none } ]

def exZipDocsC4 : List (String × List Node) :=
  [("ch1.xhtml", [{ tag := "p", idAttr := "", src := none, text := "本文" }])]

theorem missing_file_placeholder_witness :
    (runAssembler exZipDocsC4 [] [] exItemsC4).length = 2 ∧
    ∃ r, (runAssembler exZipDocsC4 [] [] exItemsC4)[1]? = some r ∧
      r.isHtmlContent = true ∧
      ∃ pre post, r.content = pre ++ ("missing.xhtml" ++ post) :=
  missing_file_placeholder exZipDocsC4 [] [] exItemsC4 1 "missing.xhtml"
    (by decide) (by decide) (by decide) (by decide)

theorem titleOrSentinel_ne_empty (label : Option String) :
    titleOrSentinel label ≠ "" := by
  unfold titleOrSentinel
  cases label with
  | none => decide
  | some t =>
    show (if jsTrim t = "" then "無題の章" else jsTrim t) ≠ ""
    by_cases ht : jsTrim t = ""
    · rw [if_pos ht]
      decide
    · rw [if_neg ht]
      exact ht

theorem truncateTitle_ne_empty (s : String) (h : s ≠ "") :
    truncateTitle s ≠ "" := by
  unfold truncateTitle
  by_cases hl : s.length > MAX_TITLE_LENGTH
  · rw [if_pos hl]
    intro hcon
    have hd : (jsSubstring s MAX_TITLE_LENGTH ++ "...").data = [] :=
      congrArg String.data hcon
    rw [string_data_append] at hd
    exact absurd (List.append_eq_nil.mp hd).2 (by decide)
  · rw [if_neg hl]
    exact h

/-- C10: every TOC item built by either the NCX or the navigation-document
branch has a non-null, nonempty title (the sentinel `"無題の章"` replaces a
blank one), so the assembler skips such an item exactly when its file path is
missing or falsy — never because of its title. -/
theorem toc_titles_never_missing (tocPath : String) (nps : List NavPoint)
    (links : List NavLink) (item : TocItem)
    (h : item ∈ nps.map (tocItemOfNavPoint tocPath) ∨
         item ∈ links.map (tocItemOfNavLink tocPath)) :
    (∃ s, item.title = some s ∧ s ≠ "") ∧
    ∀ (ctx : List TocItem) (zipDocs : List (String × List Node))
      (zipBins : List (String × String)) (m : List (String × ManifestItem)),
      (itemRecord ctx zipDocs zipBins m item = none ↔
        truthy item.filePath = false) := by
  have htitle : ∃ s, item.title = some s ∧ s ≠ "" := by
    rcases h with hnp | hlk
    · obtain ⟨np, _, rfl⟩ := List.mem_map.mp hnp
      exact ⟨titleOrSentinel np.labelText, rfl,
        titleOrSentinel_ne_empty np.labelText⟩
    · obtain ⟨link, _, rfl⟩ := List.mem_map.mp hlk
      exact ⟨titleOrSentinel link.textContent, rfl,
        titleOrSentinel_ne_empty link.textContent⟩
  refine ⟨htitle, ?_⟩
  intro ctx zipDocs zipBins m
  rw [itemRecord_eq_guard]
  obtain ⟨s, hst, hsne⟩ := htitle
  have htr : truthy (item.title.map truncateTitle) = true := by
    rw [hst]
    simp [truthy, truncateTitle_ne_empty s hsne]
  simp only [passes, htr, Bool.true_and]
  cases hfp : truthy item.filePath
  · simp
  · simp

/-- A navigation point with no label at all, witnessing the sentinel title. -/
def exNpC10 : NavPoint := { labelText := none, contentSrc := some "ch1.xhtml#s1" }

def exItemC10 : TocItem := tocItemOfNavPoint "OEBPS/toc.ncx" exNpC10

theorem toc_titles_never_missing_witness :
    (∃ s, exItemC10.title = some s ∧ s ≠ "") ∧
    (itemRecord [] [] [] [] exItemC10 = none ↔
      truthy exItemC10.filePath = false) := by
  have h := toc_titles_never_missing "OEBPS/toc.ncx" [exNpC10] [] exItemC10
    (Or.inl (by decide))
  exact ⟨h.1, h.2 [] [] [] []⟩

/-! ## Empty-result messages: theorems for claim C5 -/

theorem emptyTocMsg_char4 (tp : String) :
    (emptyTocMsg tp ++ errSuffix).data[4]? = some 'の' := by
  unfold emptyTocMsg
  simp only [string_data_append, List.append_assoc]
  rw [List.getElem?_append_left (by decide)]
  decide

theorem emptyTocMsg_ne_noToc (tp : String) :
    emptyTocMsg tp ++ errSuffix ≠ noTocMsg ++ errSuffix := by
  intro h
  have h4 := congrArg (fun s => s.data[4]?) h
  simp only at h4
  rw [emptyTocMsg_char4 tp] at h4
  have hr : (noTocMsg ++ errSuffix).data[4]? = some 'か' := by decide
  rw [hr] at h4
  exact absurd h4 (by decide)

theorem emptyTocMsg_ne_noResolvable (tp : String) :
    emptyTocMsg tp ++ errSuffix ≠ noResolvableMsg ++ errSuffix := by
  intro h
  have h4 := congrArg (fun s => s.data[4]?) h
  simp only at h4
  rw [emptyTocMsg_char4 tp] at h4
  have hr : (noResolvableMsg ++ errSuffix).data[4]? = some '目' := by decide
  rw [hr] at h4
  exact absurd h4 (by decide)

/-- C5: a TOC that was found and loaded but yields zero entries (empty
`navMap`) makes the import fail with the "TOC found but no entries" message,
which differs from both the "no TOC reference found" message and the "entries
found but none resolvable" message. -/
theorem empty_toc_distinct_message (tp mt : String)
    (zipDocs : List (String × List Node)) (zipBins : List (String × String))
    (m : List (String × ManifestItem)) (htp : tp ≠ "") (hmt : mt ≠ "") :
    runNcxStage tp mt [] zipDocs zipBins m =
      ImportOutcome.failure (emptyTocMsg tp ++ errSuffix) ∧
    emptyTocMsg tp ++ errSuffix ≠ noTocMsg ++ errSuffix ∧
    emptyTocMsg tp ++ errSuffix ≠ noResolvableMsg ++ errSuffix := by
  refine ⟨?_, emptyTocMsg_ne_noToc tp, emptyTocMsg_ne_noResolvable tp⟩
  have hstep : runNcxStage tp mt [] zipDocs zipBins m =
      finalizeResult (some tp) (some mt) false [] := rfl
  rw [hstep]
  simp [finalizeResult, truthy, htp, hmt]

theorem empty_toc_distinct_message_witness :
    runNcxStage "OEBPS/toc.ncx" "application/x-dtbncx+xml" [] [] [] [] =
      ImportOutcome.failure (emptyTocMsg "OEBPS/toc.ncx" ++ errSuffix) ∧
    emptyTocMsg "OEBPS/toc.ncx" ++ errSuffix ≠ noTocMsg ++ errSuffix ∧
    emptyTocMsg "OEBPS/toc.ncx" ++ errSuffix ≠ noResolvableMsg ++ errSuffix :=
  empty_toc_distinct_message "OEBPS/toc.ncx" "application/x-dtbncx+xml" [] [] []
    (by decide) (by decide)

/-! ## TOC-reference precedence: theorems for claim C1 -/

theorem ncxFallback_hits (manifestById : List (String × ManifestItem))
    (hncx : ∃ e ∈ manifestById.map Prod.snd,
      e.mediaType = "application/x-dtbncx+xml") :
    ∃ e ∈ manifestById.map Prod.snd,
      e.mediaType = "application/x-dtbncx+xml" ∧
      ncxFallback manifestById = some (e.href, e.mediaType) := by
  obtain ⟨e0, he0, hm0⟩ := hncx
  have hsome : ((manifestById.map Prod.snd).find?
      (fun m => m.mediaType = "application/x-dtbncx+xml")).isSome := by
    rw [List.find?_isSome]
    exact ⟨e0, he0, by simp [hm0]⟩
  obtain ⟨e, he⟩ := Option.isSome_iff_exists.mp hsome
  refine ⟨e, List.mem_of_find?_eq_some he, ?_, ?_⟩
  · have hp := List.find?_some he
    simpa using hp
  · unfold ncxFallback
    rw [he]

theorem navStage_none (items : List OpfItem)
    (manifestById : List (String × ManifestItem))
    (hnav : ∀ it ∈ items, propsHasNav it = true →
      ∀ navId e, it.id = some navId → lookupA manifestById navId = some e →
        ¬ (e.mediaType = "application/xhtml+xml" ∨ e.mediaType = "text/html")) :
    navStage items manifestById = none := by
  cases hf : items.find? propsHasNav with
  | none => simp only [navStage, hf]
  | some navItem =>
    have hmem := List.mem_of_find?_eq_some hf
    have hprops := List.find?_some hf
    simp only [navStage, hf]
    cases hid : navItem.id with
    | none => rfl
    | some navId =>
      show (if navId ≠ "" then
          match lookupA manifestById navId with
          | some e =>
            if e.mediaType = "application/xhtml+xml" ∨ e.mediaType = "text/html"
            then some (e.href, e.mediaType)
            else none
          | none => none
        else none) = none
      by_cases h0 : navId = ""
      · rw [if_neg (fun hh => hh h0)]
      · rw [if_pos h0]
        cases hl : lookupA manifestById navId with
        | none => rfl
        | some e =>
          show (if e.mediaType = "application/xhtml+xml" ∨
              e.mediaType = "text/html"
            then some (e.href, e.mediaType)
            else none) = none
          rw [if_neg (hnav navItem hmem hprops navId e hid hl)]

/-- C1 amended: for every package in which no manifest item's `properties`
contains `nav` with an XHTML/HTML media type (the media type the code reads:
that of the manifest entry the item's id names), and the `spine/@toc`
attribute is absent, falsy, or names no manifest entry, the chosen TOC
reference is an NCX-typed manifest entry whenever one exists.  The last resort
is NOT tried when `spine/@toc` names an entry of unaccepted media type — see
the counterexample. -/
theorem ncx_last_resort (rootfilePath : String) (opf : OpfPackage)
    (hnav : ∀ it ∈ opf.items, propsHasNav it = true →
      ∀ navId e, it.id = some navId →
        lookupA (buildManifest rootfilePath opf.items).1 navId = some e →
        ¬ (e.mediaType = "application/xhtml+xml" ∨ e.mediaType = "text/html"))
    (hspine : opf.spineToc = none ∨ opf.spineToc = some "" ∨
      ∃ sid, opf.spineToc = some sid ∧
        lookupA (buildManifest rootfilePath opf.items).1 sid = none)
    (hncx : ∃ e ∈ (buildManifest rootfilePath opf.items).1.map Prod.snd,
      e.mediaType = "application/x-dtbncx+xml") :
    ∃ e ∈ (buildManifest rootfilePath opf.items).1.map Prod.snd,
      e.mediaType = "application/x-dtbncx+xml" ∧
      chooseTocRef rootfilePath opf = some (e.href, e.mediaType) := by
  obtain ⟨e, he, hm, hfb⟩ :=
    ncxFallback_hits (buildManifest rootfilePath opf.items).1 hncx
  refine ⟨e, he, hm, ?_⟩
  have hnavnone :=
    navStage_none opf.items (buildManifest rootfilePath opf.items).1 hnav
  have hsp : spineTocStage (buildManifest rootfilePath opf.items).1
      opf.spineToc = some (e.href, e.mediaType) := by
    rcases hspine with h | h | ⟨sid, hsid, hlook⟩
    · simp only [spineTocStage, h]
      exact hfb
    · simp only [spineTocStage, h]
      rw [if_neg (fun hh => hh rfl)]
      exact hfb
    · simp only [spineTocStage, hsid]
      by_cases hs0 : sid = ""
      · rw [if_neg (fun hh => hh hs0)]
        exact hfb
      · rw [if_pos hs0]
        simp only [hlook]
        exact hfb
  simp only [chooseTocRef, hnavnone, hsp]
  rw [if_neg (by simp [truthyRef])]

/-- A package with a nav-flagged item of unaccepted media type (`image/png`)
and an NCX manifest item, with no `spine/@toc` at all: rule (a) falls through
and rule (c) fires. -/
def exOpfC1w : OpfPackage :=
  { items := [ { id := some "navpng", href := some "nav.png",
                 mediaType := some "image/png", properties := some "nav" },
               { id := some "ncx", href := some "toc.ncx",
                 mediaType := some "application/x-dtbncx+xml",
                 properties := none } ]
    spineToc := none }

theorem ncx_last_resort_witness :
    ∃ e ∈ (buildManifest "OEBPS/content.opf" exOpfC1w.items).1.map Prod.snd,
      e.mediaType = "application/x-dtbncx+xml" ∧
      chooseTocRef "OEBPS/content.opf" exOpfC1w = some (e.href, e.mediaType) := by
  refine ncx_last_resort "OEBPS/content.opf" exOpfC1w ?_ (Or.inl rfl) (by decide)
  intro it hit hprops navId e hid hl
  have hmem : it = exOpfC1w.items[0] ∨ it = exOpfC1w.items[1] := by
    simpa [exOpfC1w, List.mem_cons] using hit
  rcases hmem with rfl | rfl
  · have hnavId : navId = "navpng" := (Option.some.inj hid).symm
    subst hnavId
    have heval : lookupA (buildManifest "OEBPS/content.opf" exOpfC1w.items).1
        "navpng" = some { href := "OEBPS/nav.png", mediaType := "image/png",
                          id := "navpng" } := by decide
    rw [heval] at hl
    have he : e = { href := "OEBPS/nav.png", mediaType := "image/png",
                    id := "navpng" } := (Option.some.inj hl).symm
    subst he
    decide
  · exact absurd hprops (by decide)

/-- A package where `spine/@toc` names a manifest entry of unaccepted media
type (`image/png`) while an NCX item exists: the code yields no TOC reference
at all instead of falling back to the NCX item. -/
def exOpfC1 : OpfPackage :=
  { items :=
      [ { id := some "cover", href := some "cover.png",
          mediaType := some "image/png", properties := none },
        { id := some "ncx", href := some "toc.ncx",
          mediaType := some "application/x-dtbncx+xml", properties := none } ]
    spineToc := some "cover" }

/-- C1 counterexample: all of the claim's hypotheses hold at `exOpfC1` — no
nav-flagged item, `spine/@toc` names an entry whose media type is neither NCX
nor XHTML/HTML, and an NCX manifest item exists — yet the parser chooses no
TOC reference at all: the last-resort rule is not tried. -/
theorem ncx_last_resort_counterexample :
    (∀ it ∈ exOpfC1.items, propsHasNav it = false) ∧
    exOpfC1.spineToc = some "cover" ∧
    lookupA (buildManifest "OEBPS/content.opf" exOpfC1.items).1 "cover" =
      some { href := "OEBPS/cover.png", mediaType := "image/png",
             id := "cover" } ∧
    (∃ e ∈ (buildManifest "OEBPS/content.opf" exOpfC1.items).1.map Prod.snd,
      e.mediaType = "application/x-dtbncx+xml") ∧
    chooseTocRef "OEBPS/content.opf" exOpfC1 = none := by decide

/-! ## Manifest indices: theorems for claim C7 -/

/-- The manifest entries actually built: one per item with all three
attributes present and truthy, in document order. -/
def validEntries (rootfilePath : String) (items : List OpfItem) :
    List ManifestItem :=
  items.filterMap (rawEntry rootfilePath)

theorem upsert_fresh (m : List (String × ManifestItem)) (k : String)
    (v : ManifestItem) (h : ¬ k ∈ m.map Prod.fst) :
    upsert m k v = m ++ [(k, v)] := by
  unfold upsert
  rw [if_neg]
  intro hcon
  rw [List.any_eq_true] at hcon
  obtain ⟨q, hq, hqk⟩ := hcon
  have hqe : q.1 = k := of_decide_eq_true hqk
  exact h (hqe ▸ List.mem_map_of_mem Prod.fst hq)

theorem buildManifest_fold (rootfilePath : String) :
    ∀ (items : List OpfItem)
      (acc : List (String × ManifestItem) × List (String × ManifestItem)),
      ((validEntries rootfilePath items).map ManifestItem.id).Nodup →
      ((validEntries rootfilePath items).map ManifestItem.href).Nodup →
      (∀ e ∈ validEntries rootfilePath items, ¬ e.id ∈ acc.1.map Prod.fst) →
      (∀ e ∈ validEntries rootfilePath items, ¬ e.href ∈ acc.2.map Prod.fst) →
      items.foldl
        (fun acc it =>
          match rawEntry rootfilePath it with
          | some e => (upsert acc.1 e.id e, upsert acc.2 e.href e)
          | none => acc) acc =
      (acc.1 ++ (validEntries rootfilePath items).map (fun e => (e.id, e)),
       acc.2 ++ (validEntries rootfilePath items).map (fun e => (e.href, e)))
    := by
  intro items
  induction items with
  | nil =>
    intro acc _ _ _ _
    simp [validEntries]
  | cons it rest ih =>
    intro acc hid hhref hfr1 hfr2
    cases hre : rawEntry rootfilePath it with
    | none =>
      have hv : validEntries rootfilePath (it :: rest) =
          validEntries rootfilePath rest := by
        simp [validEntries, List.filterMap_cons, hre]
      rw [hv] at hid hhref hfr1 hfr2
      simp only [List.foldl_cons, hre]
      rw [hv]
      exact ih acc hid hhref hfr1 hfr2
    | some e =>
      have hv : validEntries rootfilePath (it :: rest) =
          e :: validEntries rootfilePath rest := by
        simp [validEntries, List.filterMap_cons, hre]
      rw [hv] at hid hhref hfr1 hfr2
      simp only [List.map_cons, List.nodup_cons] at hid hhref
      have hu1 : upsert acc.1 e.id e = acc.1 ++ [(e.id, e)] :=
        upsert_fresh _ _ _ (hfr1 e (List.mem_cons_self e _))
      have hu2 : upsert acc.2 e.href e = acc.2 ++ [(e.href, e)] :=
        upsert_fresh _ _ _ (hfr2 e (List.mem_cons_self e _))
      simp only [List.foldl_cons, hre]
      rw [hv]
      rw [ih (upsert acc.1 e.id e, upsert acc.2 e.href e) hid.2 hhref.2
        (by
          intro x hx
          rw [hu1, List.map_append, List.mem_append]
          rintro (hc | hc)
          · exact hfr1 x (List.mem_cons_of_mem e hx) hc
          · simp only [List.map_cons, List.map_nil, List.mem_singleton] at hc
            exact hid.1 (hc ▸ List.mem_map_of_mem ManifestItem.id hx))
        (by
          intro x hx
          rw [hu2, List.map_append, List.mem_append]
          rintro (hc | hc)
          · exact hfr2 x (List.mem_cons_of_mem e hx) hc
          · simp only [List.map_cons, List.map_nil, List.mem_singleton] at hc
            exact hhref.1 (hc ▸ List.mem_map_of_mem ManifestItem.href hx))]
      rw [hu1, hu2]
      simp [List.append_assoc]

/-- C7 amended: when the valid manifest items have pairwise-distinct ids and
pairwise-distinct resolved hrefs, the by-id and by-href indices carry exactly
the same entries in the same order — same cardinality and same media type per
href.  (With a duplicate id or duplicate resolved href the two indices can
differ — see the counterexample.) -/
theorem manifest_indices_consistent (rootfilePath : String)
    (items : List OpfItem)
    (hid : ((validEntries rootfilePath items).map ManifestItem.id).Nodup)
    (hhref : ((validEntries rootfilePath items).map ManifestItem.href).Nodup) :
    (buildManifest rootfilePath items).1.map Prod.snd =
      validEntries rootfilePath items ∧
    (buildManifest rootfilePath items).2.map Prod.snd =
      validEntries rootfilePath items ∧
    (buildManifest rootfilePath items).1.length =
      (buildManifest rootfilePath items).2.length := by
  have h := buildManifest_fold rootfilePath items ([], []) hid hhref
    (by intro e _; simp) (by intro e _; simp)
  have hb : buildManifest rootfilePath items =
      ((validEntries rootfilePath items).map (fun e => (e.id, e)),
       (validEntries rootfilePath items).map (fun e => (e.href, e))) := by
    unfold buildManifest
    rw [h]
    simp
  rw [hb]
  refine ⟨?_, ?_, ?_⟩
  · rw [List.map_map]
    rw [show (Prod.snd ∘ fun e : ManifestItem => (e.id, e)) = id from rfl]
    exact List.map_id _
  · rw [List.map_map]
    rw [show (Prod.snd ∘ fun e : ManifestItem => (e.href, e)) = id from rfl]
    exact List.map_id _
  · simp [List.length_map]

/-- Two valid manifest items sharing the id `"a"`: the by-id index collapses
them while the by-href index keeps both. -/
def exItemsC7 : List OpfItem :=
  [ { id := some "a", href := some "x.xhtml",
      mediaType := some "application/xhtml+xml", properties := none },
    { id := some "a", href := some "y.xhtml",
      mediaType := some "application/xhtml+xml", properties := none } ]

/-- C7 counterexample: on a manifest with a duplicated item id the two indices
have different cardinalities (1 vs 2), so they do not contain the same set of
entries. -/
theorem manifest_indices_counterexample :
    (buildManifest "content.opf" exItemsC7).1.length = 1 ∧
    (buildManifest "content.opf" exItemsC7).2.length = 2 := by decide

/-- Two valid items with distinct ids and hrefs, witnessing the amended
consistency theorem. -/
def exItemsC7w : List OpfItem :=
  [ { id := some "c1", href := some "ch1.xhtml",
      mediaType := some "application/xhtml+xml", properties := none },
    { id := some "c2", href := some "ch2.xhtml",
      mediaType := some "application/xhtml+xml", properties := none } ]

theorem manifest_indices_consistent_witness :
    (buildManifest "content.opf" exItemsC7w).1.map Prod.snd =
      validEntries "content.opf" exItemsC7w ∧
    (buildManifest "content.opf" exItemsC7w).2.map Prod.snd =
      validEntries "content.opf" exItemsC7w ∧
    (buildManifest "content.opf" exItemsC7w).1.length =
      (buildManifest "content.opf" exItemsC7w).2.length :=
  manifest_indices_consistent "content.opf" exItemsC7w (by decide) (by decide)

end BookChat
